import Mathlib

/-!
Shallow embedding of `snyk-bulk-delete.py` (snyk-cx-tools repository):
the type classifier, the date-range predicate, the project/org filter
predicates, the getopt-based option processing, and the main
deactivate/delete run loop with an explicit event trace.
-/

namespace SnykBulkDelete

/-! ## TypeClassifier (`convertProjectTypeToProduct`) -/

def containerTypes : List String := ["deb", "linux", "dockerfile", "rpm", "apk"]

def iacTypes : List String :=
  ["k8sconfig", "helmconfig", "terraformconfig", "armconfig", "cloudformationconfig"]

def codeTypes : List String := ["sast"]

def open_source_types : List String :=
  ["cocoapods", "composer", "cpp", "golangdep", "gomodules", "govendor", "gradle",
   "hex", "maven", "npm", "nuget", "paket", "pip", "pipenv", "poetry", "rubygems",
   "sbt", "swift", "yarn"]

def convertProjectTypeToProduct (inputType : String) : String :=
  if containerTypes.contains inputType then "container"
  else if iacTypes.contains inputType then "iac"
  else if codeTypes.contains inputType then "sast"
  else if open_source_types.contains inputType then "opensource"
  else "unknown"

/-! ## DateRangeMatcher (`is_date_between`)

Timestamps are parsed with Python's `datetime.strptime` against the fixed
format `%Y-%m-%dT%H:%M:%S.%fZ`; the model accepts the canonical
zero-padded rendering of that format and rejects field values the
`datetime` constructor would reject.  Parsed datetimes compare
lexicographically by field, modelled through an injective numeric key. -/

structure PyDateTime where
  year : Nat
  month : Nat
  day : Nat
  hour : Nat
  minute : Nat
  second : Nat
  micro : Nat
deriving DecidableEq, Repr

def PyDateTime.key (d : PyDateTime) : Nat :=
  (((((d.year * 13 + d.month) * 32 + d.day) * 24 + d.hour) * 60 + d.minute) * 60
      + d.second) * 1000000 + d.micro

def dtLe (a b : PyDateTime) : Bool := decide (a.key ≤ b.key)

def isLeapYear (y : Nat) : Bool := (y % 4 == 0 && y % 100 != 0) || (y % 400 == 0)

def daysInMonth (y m : Nat) : Nat :=
  if m == 2 then (if isLeapYear y then 29 else 28)
  else if m == 4 || m == 6 || m == 9 || m == 11 then 30
  else 31

def readNDigits : Nat → Nat → List Char → Option (Nat × List Char)
  | 0, acc, cs => some (acc, cs)
  | n + 1, acc, c :: cs =>
      if c.isDigit then readNDigits n (acc * 10 + (c.toNat - 48)) cs else none
  | _ + 1, _, [] => none

def readMicro (cs : List Char) : Option (Nat × List Char) :=
  let ds := cs.takeWhile (fun c => c.isDigit)
  if ds.length < 1 || ds.length > 6 then none
  else
    let v := ds.foldl (fun a c => a * 10 + (c.toNat - 48)) 0
    some (v * 10 ^ (6 - ds.length), cs.drop ds.length)

def expectChar (c : Char) : List Char → Option (List Char)
  | x :: xs => if x == c then some xs else none
  | [] => none

def strptimeF (s : String) : Option PyDateTime := do
  let cs := s.toList
  let (y, cs) ← readNDigits 4 0 cs
  let cs ← expectChar '-' cs
  let (mo, cs) ← readNDigits 2 0 cs
  let cs ← expectChar '-' cs
  let (d, cs) ← readNDigits 2 0 cs
  let cs ← expectChar 'T' cs
  let (h, cs) ← readNDigits 2 0 cs
  let cs ← expectChar ':' cs
  let (mi, cs) ← readNDigits 2 0 cs
  let cs ← expectChar ':' cs
  let (sec, cs) ← readNDigits 2 0 cs
  let cs ← expectChar '.' cs
  let (us, cs) ← readMicro cs
  let cs ← expectChar 'Z' cs
  if !cs.isEmpty then none
  else if y < 1 || mo < 1 || mo > 12 || d < 1 || d > daysInMonth y mo
      || h > 23 || mi > 59 || sec > 59 then none
  else some ⟨y, mo, d, h, mi, sec, us⟩

/-- `is_date_between(curr_date_str, before_date_str, after_date_str)`:
`none` models the `ValueError` raised by `strptime` on unparseable input
(the caller converts it to `sys.exit(2)`). -/
def is_date_between (curr_date_str before_date_str after_date_str : String) :
    Option Bool := do
  let curr_date ← strptimeF curr_date_str
  let before_date ←
    (if before_date_str = "" then some none else (strptimeF before_date_str).map some)
  let after_date ←
    (if after_date_str = "" then some none else (strptimeF after_date_str).map some)
  match before_date, after_date with
  | some bd, some ad => some (dtLe curr_date bd && dtLe ad curr_date)
  | some bd, none => some (dtLe curr_date bd)
  | none, some ad => some (dtLe ad curr_date)
  | none, none => some true

/-! ## Data model

Python sets of strings are modelled as duplicate-free insertion lists;
only membership matters to the predicates below. -/

structure Project where
  name : String
  type : String
  origin : String
  created : String
  readOnly : Bool
  isMonitored : Bool
deriving DecidableEq, Repr

structure Org where
  id : String
  slug : String
  projects : List Project
deriving DecidableEq, Repr

structure Filters where
  nameExcludes : List String
  orgExcludes : List String
  orgs : List String
  origins : List String
  productExcludes : List String
  products : List String
  scaTypes : List String
deriving DecidableEq, Repr

structure Config where
  filters : Filters
  deleteorgs : Bool
  dryrun : Bool
  deactivate : Bool
  deleteinActive : Bool
  before_date : String
  after_date : String
deriving DecidableEq, Repr

/-! ## FilterEvaluator (`is_project_skipped`, `is_org_filtered`) -/

def is_project_skipped (filters : Filters) (project : Project) : Bool :=
  let project_type := convertProjectTypeToProduct project.type
  if project.readOnly then true
  else if project_type == "unknown" then true
  -- `project.name in filters["name-excludes"]`: Python set membership
  else if filters.nameExcludes.contains project.name then true
  else if !filters.scaTypes.isEmpty && !filters.scaTypes.contains project.type then true
  else if !filters.origins.isEmpty && !filters.origins.contains project.origin then true
  else if !filters.productExcludes.isEmpty && filters.productExcludes.contains project_type then true
  else if !filters.products.isEmpty && !filters.products.contains project_type then true
  else false

def is_org_filtered (org : Org) (filters : Filters) : Bool :=
  if filters.orgExcludes.contains org.slug then true
  else if !filters.orgs.contains org.slug then true
  else false

/-! ## Run loop (`main`)

The run is modelled as a trace of collaborator calls plus the `results`
accumulator.  A mutation call (`deactivate`, `delete`,
`delete-organization`) is issued only when `dryrun` is false; a failing
call is modelled by the oracle `fails` (resp. `orgFails`): the call event
still occurs, the exception lands the item in the `failed` list, and a
failed `delete` leaves the project on the server.  `Except.error n`
models `sys.exit(n)`. -/

inductive Event
  | listOrgs
  | listProjects (slug : String)
  | deactivateCall (name : String)
  | deleteCall (name : String)
  | deleteOrgCall (id : String)
deriving DecidableEq, Repr

inductive POutcome
  | skipped
  | deactivated
  | deleted
  | failed
deriving DecidableEq, Repr

inductive OOutcome
  | deleted
  | failed
deriving DecidableEq, Repr

def isMutation : Event → Bool
  | Event.deactivateCall _ => true
  | Event.deleteCall _ => true
  | Event.deleteOrgCall _ => true
  | _ => false

/-- One iteration of the per-project loop: the emitted call events, the
outcomes appended to `results["projects"]`, and whether the project was
actually removed from the server (a successful non-dry `delete`). -/
def processProject (cfg : Config) (fails : Project → Bool) (p : Project) :
    Except Nat (List Event × List (POutcome × Project) × Bool) :=
  match is_date_between p.created cfg.before_date cfg.after_date with
  | none => Except.error 2
  | some false => Except.ok ([], [], false)
  | some true =>
    if is_project_skipped cfg.filters p then
      Except.ok ([], [(POutcome.skipped, p)], false)
    else
      -- delete active project if filters are met
      let act1 : List Event × List (POutcome × Project) × Bool :=
        if p.isMonitored && !cfg.deleteinActive then
          if !cfg.deactivate then
            ((if !cfg.dryrun then [Event.deleteCall p.name] else []),
             [((if !cfg.dryrun && fails p then POutcome.failed else POutcome.deleted), p)],
             !cfg.dryrun && !fails p)
          else
            ((if !cfg.dryrun then [Event.deactivateCall p.name] else []),
             [((if !cfg.dryrun && fails p then POutcome.failed else POutcome.deactivated), p)],
             false)
        else ([], [], false)
      -- delete inactive project if filters are met
      let act2 : List Event × List (POutcome × Project) × Bool :=
        if !p.isMonitored && cfg.deleteinActive then
          ((if !cfg.dryrun then [Event.deleteCall p.name] else []),
           [((if !cfg.dryrun && fails p then POutcome.failed else POutcome.deleted), p)],
           !cfg.dryrun && !fails p)
        else ([], [], false)
      Except.ok (act1.1 ++ act2.1, act1.2.1 ++ act2.2.1, act1.2.2 || act2.2.2)

/-- The per-project loop over one organization's project listing; the
third component collects the projects removed from the server. -/
def processProjects (cfg : Config) (fails : Project → Bool) :
    List Project → Except Nat (List Event × List (POutcome × Project) × List Project)
  | [] => Except.ok ([], [], [])
  | p :: ps =>
    match processProject cfg fails p with
    | Except.error n => Except.error n
    | Except.ok r =>
      match processProjects cfg fails ps with
      | Except.error n => Except.error n
      | Except.ok rest =>
        Except.ok (r.1 ++ rest.1, r.2.1 ++ rest.2.1,
          (if r.2.2 then [p] else []) ++ rest.2.2)

/-- One iteration of the organization loop, including the
`--delete-empty-orgs` cleanup with its fresh project re-query (which
reflects the projects this run deleted from the server). -/
def processOrg (cfg : Config) (fails : Project → Bool) (orgFails : Org → Bool)
    (org : Org) :
    Except Nat (List Event × List (POutcome × Project) × List (OOutcome × Org)) :=
  if is_org_filtered org cfg.filters then Except.ok ([], [], [])
  else
    match processProjects cfg fails org.projects with
    | Except.error n => Except.error n
    | Except.ok pr =>
      let cleanup : List Event × List (OOutcome × Org) :=
        if cfg.deleteorgs then
          let remaining := org.projects.filter (fun p => !(pr.2.2.contains p))
          if remaining.length != 0 then ([Event.listProjects org.slug], [])
          else
            (Event.listProjects org.slug ::
               (if !cfg.dryrun then [Event.deleteOrgCall org.id] else []),
             [((if !cfg.dryrun && orgFails org then OOutcome.failed else OOutcome.deleted), org)])
        else ([], [])
      Except.ok (Event.listProjects org.slug :: pr.1 ++ cleanup.1, pr.2.1, cleanup.2)

def runOrgs (cfg : Config) (fails : Project → Bool) (orgFails : Org → Bool) :
    List Org → Except Nat (List Event × List (POutcome × Project) × List (OOutcome × Org))
  | [] => Except.ok ([], [], [])
  | org :: orgs =>
    match processOrg cfg fails orgFails org with
    | Except.error n => Except.error n
    | Except.ok r =>
      match runOrgs cfg fails orgFails orgs with
      | Except.error n => Except.error n
      | Except.ok rest =>
        Except.ok (r.1 ++ rest.1, r.2.1 ++ rest.2.1, r.2.2 ++ rest.2.2)

def filtersAllEmpty (f : Filters) : Bool :=
  f.nameExcludes.isEmpty && f.orgExcludes.isEmpty && f.orgs.isEmpty
    && f.origins.isEmpty && f.productExcludes.isEmpty && f.products.isEmpty
    && f.scaTypes.isEmpty

/-- The body of `main` after option processing: the usage-error check,
then the organization loop, then the summary (the summary only reads the
accumulated `results`, so it is the returned value itself). -/
def mainRun (userOrgs : List Org) (cfg : Config) (fails : Project → Bool)
    (orgFails : Org → Bool) :
    Except Nat (List Event × List (POutcome × Project) × List (OOutcome × Org)) :=
  if filtersAllEmpty cfg.filters && !cfg.deleteorgs then Except.error 2
  else runOrgs cfg fails orgFails userOrgs

/-- Whole-program events: the module-level `client.organizations.all()`
call happens at import time, before `main` parses or validates any
option; then `main` runs and the process exits. -/
inductive ProgEvent
  | api (e : Event)
  | exitCode (n : Nat)
deriving DecidableEq, Repr

def programEvents (userOrgs : List Org) (cfg : Config) (fails : Project → Bool)
    (orgFails : Org → Bool) : List ProgEvent :=
  ProgEvent.api Event.listOrgs ::
    match mainRun userOrgs cfg fails orgFails with
    | Except.error n => [ProgEvent.exitCode n]
    | Except.ok r => r.1.map ProgEvent.api ++ [ProgEvent.exitCode 0]

/-! ## Option processing (`getopt.getopt` plus the `for opt, arg in opts` loop)

Python's `getopt` matches a long option by unique prefix against the
declared list; `--orgs`-style membership tests in the processing loop are
Python `in` on strings, i.e. substring containment.  `none` models
`sys.exit(2)` (a `GetoptError` or `--help`). -/

def longopts : List String :=
  ["after-date=", "before-date=", "delete", "delete-empty-orgs",
   "delete-inactive-projects", "force", "help", "name-excludes=",
   "org-excludes=", "orgs=", "origins=", "product-excludes=", "products=",
   "sca-types="]

def shortopts : String := "hofd"

/-- `startswith` on strings, computed on the character lists. -/
def strStarts (s pre : String) : Bool := pre.toList.isPrefixOf s.toList

/-- Split at the first `'='`, as Python's `opt.index('=')` slicing does:
the part before it and, when present, the part after it. -/
def splitAtEq : List Char → Option (List Char × List Char)
  | [] => none
  | c :: cs =>
    if c == '=' then some ([], cs)
    else (splitAtEq cs).map (fun r => (c :: r.1, r.2))

/-- `getopt.long_has_args`: exact match, else `opt + '='` match, else a
unique prefix match; returns whether the option takes an argument and its
full name. -/
def long_has_args (opt : String) (lopts : List String) : Option (Bool × String) :=
  let possibilities := lopts.filter (fun o => strStarts o opt)
  if possibilities.isEmpty then none
  else if possibilities.contains opt then some (false, opt)
  else if possibilities.contains (opt ++ "=") then some (true, opt)
  else if possibilities.length > 1 then none
  else
    match possibilities with
    | [u] =>
      if u.toList.getLast? == some '=' then some (true, String.mk u.toList.dropLast)
      else some (false, u)
    | _ => none

/-- `getopt.do_longs` for one `--`-token (already stripped of the leading
`--`): yields the resolved `(option, value)` pair and whether the next
argv entry was consumed as the value. -/
def do_longs (token : String) (nextArg : Option String) :
    Option ((String × String) × Bool) :=
  let split := splitAtEq token.toList
  let opt : String :=
    match split with
    | some (pre, _) => String.mk pre
    | none => token
  let optarg : Option String :=
    match split with
    | some (_, post) => some (String.mk post)
    | none => none
  match long_has_args opt longopts with
  | none => none
  | some (has_arg, fullopt) =>
    if has_arg then
      match optarg with
      | some v => some (("--" ++ fullopt, v), false)
      | none =>
        match nextArg with
        | some a => some (("--" ++ fullopt, a), true)
        | none => none
    else
      match optarg with
      | some _ => none
      | none => some (("--" ++ fullopt, ""), false)

/-- `getopt.do_shorts` for one `-`-token: none of `hofd` takes an
argument. -/
def do_shorts (chars : List Char) : Option (List (String × String)) :=
  chars.mapM (fun c =>
    if shortopts.toList.contains c then some ("-" ++ String.mk [c], "") else none)

/-- The `getopt` scan loop.  The fuel argument only serves structural
recursion; `getopt` below supplies more fuel than the loop can consume
(each iteration uses at least one argv entry). -/
def getoptGo : Nat → List String → Option (List (String × String))
  | _, [] => some []
  | 0, _ :: _ => none
  | fuel + 1, tok :: rest =>
    if !strStarts tok "-" || tok == "-" then some []
    else if tok == "--" then some []
    else if strStarts tok "--" then
      match do_longs (String.mk (tok.toList.drop 2)) rest.head? with
      | none => none
      | some (pair, true) => (getoptGo fuel rest.tail).map (fun l => pair :: l)
      | some (pair, false) => (getoptGo fuel rest).map (fun l => pair :: l)
    else
      match do_shorts (tok.toList.drop 1) with
      | none => none
      | some pairs => (getoptGo fuel rest).map (fun l => pairs ++ l)

def getopt (argv : List String) : Option (List (String × String)) :=
  getoptGo (argv.length + 1) argv

/-- Python `str.lower()` (the inputs involved are ASCII). -/
def pyLower (s : String) : String := String.mk (s.toList.map Char.toLower)

/-- Python `needle in haystack` on strings: substring containment. -/
def pyIn (needle haystack : String) : Bool :=
  let hay := haystack.toList
  (List.range (hay.length + 1)).any (fun i => needle.toList.isPrefixOf (hay.drop i))

/-- Python `set.add` on an insertion-ordered duplicate-free list. -/
def setAdd (l : List String) (x : String) : List String :=
  if l.contains x then l else l ++ [x]

def initConfig : Config :=
  { filters :=
      { nameExcludes := [], orgExcludes := [], orgs := [], origins := [],
        productExcludes := [], products := [], scaTypes := [] }
    deleteorgs := false
    dryrun := true
    deactivate := true
    deleteinActive := false
    before_date := ""
    after_date := "" }

/-- One iteration of the `for opt, arg in opts` loop.  Each `if` of the
source is independent (no `elif`), and `opt in "--orgs"`-style tests are
substring tests; `none` models the `sys.exit(2)` taken for `--help`. -/
def processOpt (userOrgSlugs : List String) (st : Config) (opt arg : String) :
    Option Config :=
  if opt == "--help" then none
  else
    let st := if pyIn opt "--orgs" then
        (if arg == "!" then { st with filters := { st.filters with orgs := userOrgSlugs } }
         else { st with filters := { st.filters with orgs := setAdd st.filters.orgs (pyLower arg) } })
      else st
    let st := if pyIn opt "--org-excludes" then
        { st with filters := { st.filters with orgExcludes := setAdd st.filters.orgExcludes (pyLower arg) } }
      else st
    let st := if pyIn opt "--sca-types" then
        { st with filters := { st.filters with scaTypes := setAdd st.filters.scaTypes (pyLower arg) } }
      else st
    let st := if pyIn opt "--products" then
        { st with filters := { st.filters with products := setAdd st.filters.products (pyLower arg) } }
      else st
    let st := if pyIn opt "--product-excludes" then
        { st with filters := { st.filters with productExcludes := setAdd st.filters.productExcludes (pyLower arg) } }
      else st
    let st := if pyIn opt "--origins" then
        { st with filters := { st.filters with origins := setAdd st.filters.origins (pyLower arg) } }
      else st
    let st := if pyIn opt "--name-excludes" then
        { st with filters := { st.filters with nameExcludes := setAdd st.filters.nameExcludes (pyLower arg) } }
      else st
    let st := if opt == "--delete-empty-orgs" then { st with deleteorgs := true } else st
    let st := if opt == "--force" then { st with dryrun := false } else st
    let st := if opt == "--delete" then { st with deactivate := false } else st
    let st := if opt == "--delete-inactive-projects" then
        { st with deactivate := false, deleteinActive := true }
      else st
    let st := if opt == "--before" then { st with before_date := arg } else st
    let st := if opt == "--after" then { st with after_date := arg } else st
    some st

def processOpts (userOrgSlugs : List String) :
    Config → List (String × String) → Option Config
  | st, [] => some st
  | st, (o, a) :: rest =>
    match processOpt userOrgSlugs st o a with
    | none => none
    | some st2 => processOpts userOrgSlugs st2 rest

/-- `main`'s option-processing stage: `getopt` then the processing loop. -/
def parseArgs (userOrgSlugs : List String) (argv : List String) : Option Config := do
  let opts ← getopt argv
  processOpts userOrgSlugs initConfig opts

/-! ## Claim theorems -/

/-- Concrete inputs exhibiting the name-exclude comparison. -/
def c1Filters : Filters := ⟨["test"], [], [], [], [], [], []⟩

def c1Project : Project :=
  ⟨"my-test-project", "npm", "github", "2023-09-01T00:00:00.000Z", false, true⟩

/-- C1: the claim (and the script's own help text) say a project whose
name contains a `name-excludes` entry as a case-insensitive substring is
skipped.  The code instead tests Python set membership of the raw name
(`project.name in filters["name-excludes"]`): here the lower-cased name
contains the exclude `"test"` as a substring, yet `is_project_skipped`
returns `false`, so the project stays eligible. -/
theorem C1_name_exclude_substring_not_skipped :
    pyIn "test" (pyLower c1Project.name) = true ∧
    c1Filters.nameExcludes = ["test"] ∧
    is_project_skipped c1Filters c1Project = false := by
  refine ⟨by decide, rfl, rfl⟩

/-- C7: `convertProjectTypeToProduct` is total and deterministic: each
membership list maps to its category and every other string maps to
`"unknown"` (the warning is a log-only side effect; the function never
fails). -/
theorem C7_classify_total (s : String) :
    (s ∈ containerTypes → convertProjectTypeToProduct s = "container") ∧
    (s ∈ iacTypes → convertProjectTypeToProduct s = "iac") ∧
    (s ∈ codeTypes → convertProjectTypeToProduct s = "sast") ∧
    (s ∈ open_source_types → convertProjectTypeToProduct s = "opensource") ∧
    (s ∉ containerTypes → s ∉ iacTypes → s ∉ codeTypes → s ∉ open_source_types →
      convertProjectTypeToProduct s = "unknown") := by
  refine ⟨?_, ?_, ?_, ?_, ?_⟩
  · intro h; fin_cases h <;> rfl
  · intro h; fin_cases h <;> rfl
  · intro h; fin_cases h; rfl
  · intro h; fin_cases h <;> rfl
  · intro h1 h2 h3 h4
    simp [convertProjectTypeToProduct, h1, h2, h3, h4]

theorem C7_classify_total_witness :
    "deb" ∈ containerTypes ∧ convertProjectTypeToProduct "deb" = "container" ∧
    ("exotic-tool" ∉ containerTypes ∧ "exotic-tool" ∉ iacTypes ∧
      "exotic-tool" ∉ codeTypes ∧ "exotic-tool" ∉ open_source_types) ∧
    convertProjectTypeToProduct "exotic-tool" = "unknown" :=
  ⟨by decide, (C7_classify_total "deb").1 (by decide),
   ⟨by decide, by decide, by decide, by decide⟩,
   (C7_classify_total "exotic-tool").2.2.2.2 (by decide) (by decide) (by decide) (by decide)⟩

/-- Concrete argv exercising the `--after`/`--before` options. -/
def c6Argv : List String :=
  ["--after=2023-09-01T00:00:00.000Z", "--before=2022-01-01T00:00:00.000Z",
   "--orgs=my-org"]

/-- C6: the claim (and the help text) say `--after`/`--before` set the
date bounds.  The declared getopt long options are `after-date=` and
`before-date=`, so getopt resolves the prefixes `--after`/`--before` to
`--after-date`/`--before-date`, while the processing loop only matches
`opt == "--after"`/`opt == "--before"`: the parsed configuration keeps
both bounds empty, so the date-range filter never receives them. -/
theorem C6_after_before_options_dead :
    getopt c6Argv = some
      [("--after-date", "2023-09-01T00:00:00.000Z"),
       ("--before-date", "2022-01-01T00:00:00.000Z"),
       ("--orgs", "my-org")] ∧
    (parseArgs [] c6Argv).map (fun st => (st.after_date, st.before_date)) =
      some ("", "") ∧
    (parseArgs [] c6Argv).map (fun st => st.filters.orgs) = some ["my-org"] := by
  refine ⟨rfl, rfl, rfl⟩

/-- C8: the date-range predicate parses `createdAt` and the non-empty
bounds, treats both bounds as inclusive, requires both conditions when
both bounds are given, checks only the given one otherwise, and returns
`true` when neither is given. -/
theorem C8_date_bounds_inclusive (c b a : String) (cd : PyDateTime)
    (hc : strptimeF c = some cd) :
    (∀ bd ad, b ≠ "" → a ≠ "" → strptimeF b = some bd → strptimeF a = some ad →
      is_date_between c b a = some (dtLe cd bd && dtLe ad cd)) ∧
    (∀ bd, b ≠ "" → a = "" → strptimeF b = some bd →
      is_date_between c b a = some (dtLe cd bd)) ∧
    (∀ ad, b = "" → a ≠ "" → strptimeF a = some ad →
      is_date_between c b a = some (dtLe ad cd)) ∧
    (b = "" → a = "" → is_date_between c b a = some true) ∧
    (b ≠ "" → a = "" → strptimeF b = some cd → is_date_between c b a = some true) ∧
    (b = "" → a ≠ "" → strptimeF a = some cd → is_date_between c b a = some true) := by
  refine ⟨?_, ?_, ?_, ?_, ?_, ?_⟩
  · intro bd ad hbne hane hb ha
    simp [is_date_between, hc, hb, ha, hbne, hane]
  · intro bd hbne hae hb
    simp [is_date_between, hc, hb, hbne, hae]
  · intro ad hbe hane ha
    simp [is_date_between, hc, ha, hbe, hane]
  · intro hbe hae
    simp [is_date_between, hc, hbe, hae]
  · intro hbne hae hb
    simp [is_date_between, hc, hb, hbne, hae, dtLe]
  · intro hbe hane ha
    simp [is_date_between, hc, ha, hbe, hane, dtLe]

theorem C8_date_bounds_inclusive_witness :
    strptimeF "2023-09-01T12:30:00.500Z" = some ⟨2023, 9, 1, 12, 30, 0, 500000⟩ ∧
    is_date_between "2023-09-01T12:30:00.500Z" "2023-09-01T12:30:00.500Z" ""
      = some true ∧
    is_date_between "2023-09-01T12:30:00.500Z" "" "2023-09-01T12:30:00.500Z"
      = some true ∧
    is_date_between "2023-09-01T12:30:00.500Z" "" "" = some true :=
  ⟨rfl,
   (C8_date_bounds_inclusive "2023-09-01T12:30:00.500Z" "2023-09-01T12:30:00.500Z"
      "" ⟨2023, 9, 1, 12, 30, 0, 500000⟩ rfl).2.2.2.2.1 (by decide) rfl rfl,
   (C8_date_bounds_inclusive "2023-09-01T12:30:00.500Z" ""
      "2023-09-01T12:30:00.500Z" ⟨2023, 9, 1, 12, 30, 0, 500000⟩ rfl).2.2.2.2.2
     rfl (by decide) rfl,
   (C8_date_bounds_inclusive "2023-09-01T12:30:00.500Z" "" ""
      ⟨2023, 9, 1, 12, 30, 0, 500000⟩ rfl).2.2.2.1 rfl rfl⟩

/-- `true` iff the program trace contains a `listOrganizations` call
strictly before the exit-code-2 (usage error) event. -/
def listingBeforeExit2 (tr : List ProgEvent) : Bool :=
  (tr.takeWhile (fun e => e != ProgEvent.exitCode 2)).contains
    (ProgEvent.api Event.listOrgs)

def c5Cfg : Config := ⟨⟨[], [], [], [], [], [], []⟩, false, true, true, false, "", ""⟩

def c5Org : Org := ⟨"id1", "org1", []⟩

/-- C5 counterexample: with every filter dimension empty and
`deleteEmptyOrgs` false, the run is a usage error with exit code 2, but
the organization listing is NOT avoided: `client.organizations.all()`
runs at module import time, before `main` validates any option, so a
`listOrganizations` call precedes the usage error in the program trace. -/
theorem C5_counterexample :
    filtersAllEmpty c5Cfg.filters = true ∧ c5Cfg.deleteorgs = false ∧
    programEvents [c5Org] c5Cfg (fun _ => false) (fun _ => false)
      = [ProgEvent.api Event.listOrgs, ProgEvent.exitCode 2] ∧
    listingBeforeExit2 (programEvents [c5Org] c5Cfg (fun _ => false) (fun _ => false))
      = true := by
  refine ⟨rfl, rfl, rfl, rfl⟩

/-- C5 (amended): with every filter dimension empty and `deleteEmptyOrgs`
false, `main` terminates with a usage error (exit code 2) before any
organization is processed — the only collaborator call in the whole
program trace is the startup organization listing, which precedes the
usage error; no project listing or mutation occurs. -/
theorem C5_usage_error_before_org_processing (userOrgs : List Org) (cfg : Config)
    (fails : Project → Bool) (orgFails : Org → Bool)
    (hempty : filtersAllEmpty cfg.filters = true) (hdel : cfg.deleteorgs = false) :
    mainRun userOrgs cfg fails orgFails = Except.error 2 ∧
    programEvents userOrgs cfg fails orgFails
      = [ProgEvent.api Event.listOrgs, ProgEvent.exitCode 2] := by
  have h1 : mainRun userOrgs cfg fails orgFails = Except.error 2 := by
    simp [mainRun, hempty, hdel]
  exact ⟨h1, by simp [programEvents, h1]⟩

theorem C5_usage_error_before_org_processing_witness :
    filtersAllEmpty c5Cfg.filters = true ∧ c5Cfg.deleteorgs = false ∧
    mainRun [c5Org] c5Cfg (fun _ => true) (fun _ => true) = Except.error 2 :=
  ⟨rfl, rfl,
   (C5_usage_error_before_org_processing [c5Org] c5Cfg (fun _ => true)
      (fun _ => true) rfl rfl).1⟩

/-- C10: when the `orgs` filter is empty but some other filter dimension
is non-empty, `main` does not exit (it only logs and prints the help
text): the organization loop still runs, every organization is rejected
by `is_org_filtered` (its slug is not in the empty `orgs` set), no
project listing or mutation happens, and the final summary has zero
entries for every outcome kind. -/
theorem C10_empty_orgs_noop (userOrgs : List Org) (cfg : Config)
    (fails : Project → Bool) (orgFails : Org → Bool)
    (horgs : cfg.filters.orgs = [])
    (hne : filtersAllEmpty cfg.filters = false) :
    (∀ org ∈ userOrgs, is_org_filtered org cfg.filters = true) ∧
    mainRun userOrgs cfg fails orgFails = Except.ok ([], [], []) := by
  have hfil : ∀ org : Org, is_org_filtered org cfg.filters = true := by
    intro org
    simp [is_org_filtered, horgs]
  refine ⟨fun org _ => hfil org, ?_⟩
  have hrun : ∀ l : List Org, runOrgs cfg fails orgFails l = Except.ok ([], [], []) := by
    intro l
    induction l with
    | nil => rfl
    | cons o rest ih =>
      simp [runOrgs, processOrg, hfil o, ih]
  simp [mainRun, hne, hrun]

theorem C10_empty_orgs_noop_witness :
    (⟨⟨["x"], [], [], [], [], [], []⟩, false, true, true, false, "", ""⟩ : Config).filters.orgs = [] ∧
    filtersAllEmpty (⟨⟨["x"], [], [], [], [], [], []⟩, false, true, true, false, "", ""⟩ : Config).filters = false ∧
    mainRun [⟨"id1", "org1", [⟨"p1", "npm", "github", "2023-09-01T00:00:00.000Z", false, true⟩]⟩]
        ⟨⟨["x"], [], [], [], [], [], []⟩, false, true, true, false, "", ""⟩
        (fun _ => false) (fun _ => false) = Except.ok ([], [], []) :=
  ⟨rfl, rfl,
   (C10_empty_orgs_noop
      [⟨"id1", "org1", [⟨"p1", "npm", "github", "2023-09-01T00:00:00.000Z", false, true⟩]⟩]
      ⟨⟨["x"], [], [], [], [], [], []⟩, false, true, true, false, "", ""⟩
      (fun _ => false) (fun _ => false) rfl rfl).2⟩

/-- `true` iff the given per-project result records outcome `oc` for
project `p`. -/
def outcomeRecorded (r : Except Nat (List Event × List (POutcome × Project) × Bool))
    (oc : POutcome) (p : Project) : Bool :=
  match r with
  | Except.error _ => false
  | Except.ok x => x.2.1.contains (oc, p)

def c3Cfg : Config := ⟨⟨[], [], ["org1"], [], [], [], []⟩, false, true, false, true, "", ""⟩

def c3Project : Project := ⟨"p1", "npm", "github", "2023-09-01T00:00:00.000Z", false, true⟩

def c3InactiveProject : Project :=
  ⟨"p1", "npm", "github", "2023-09-01T00:00:00.000Z", false, false⟩

/-- C3 counterexample: an eligible project in the wrong activity state
for the selected mode (`isMonitored = true` while
`deleteInactiveOnly = true`) is NOT recorded as `Skipped`: neither loop
branch fires, so nothing at all is appended for it. -/
theorem C3_counterexample :
    is_project_skipped c3Cfg.filters c3Project = false ∧
    c3Project.isMonitored = true ∧ c3Cfg.deleteinActive = true ∧
    processProject c3Cfg (fun _ => false) c3Project = Except.ok ([], [], false) ∧
    outcomeRecorded (processProject c3Cfg (fun _ => false) c3Project)
      POutcome.skipped c3Project = false := by
  refine ⟨rfl, rfl, rfl, rfl, rfl⟩

/-- C3 (amended): for an eligible, date-in-range project in the wrong
activity state — `isMonitored = true` with `deleteInactiveOnly = true`,
or `isMonitored = false` with `deleteInactiveOnly = false` — no mutation
is attempted and NO outcome is recorded (the project is not added to the
`Skipped` list either; it simply falls through); when
`deleteInactiveOnly = true` and the project is eligible with
`isMonitored = false`, the recorded outcome is `Deleted` (absent a
mutation failure). -/
theorem C3_wrong_activity_state (cfg : Config) (fails : Project → Bool) (p : Project)
    (hdate : is_date_between p.created cfg.before_date cfg.after_date = some true)
    (helig : is_project_skipped cfg.filters p = false) :
    ((p.isMonitored = true ∧ cfg.deleteinActive = true) ∨
        (p.isMonitored = false ∧ cfg.deleteinActive = false) →
      processProject cfg fails p = Except.ok ([], [], false)) ∧
    (cfg.deleteinActive = true → p.isMonitored = false →
      (cfg.dryrun = true ∨ fails p = false) →
      ∃ evts del, processProject cfg fails p
        = Except.ok (evts, [(POutcome.deleted, p)], del)) := by
  constructor
  · rintro (⟨hm, hd⟩ | ⟨hm, hd⟩) <;>
      simp [processProject, hdate, helig, hm, hd]
  · intro hd hm hnf
    by_cases hdr : cfg.dryrun = true
    · exact ⟨[], false, by simp [processProject, hdate, helig, hm, hd, hdr]⟩
    · have hdr2 : cfg.dryrun = false := by simpa using hdr
      have hf : fails p = false := by
        cases hnf with
        | inl h => exact absurd h hdr
        | inr h => exact h
      exact ⟨[Event.deleteCall p.name], true,
        by simp [processProject, hdate, helig, hm, hd, hdr2, hf]⟩

theorem C3_wrong_activity_state_witness :
    processProject c3Cfg (fun _ => false) c3Project = Except.ok ([], [], false) ∧
    (∃ evts del, processProject c3Cfg (fun _ => false) c3InactiveProject
      = Except.ok (evts, [(POutcome.deleted, c3InactiveProject)], del)) :=
  ⟨(C3_wrong_activity_state c3Cfg (fun _ => false) c3Project rfl rfl).1
      (Or.inl ⟨rfl, rfl⟩),
   (C3_wrong_activity_state c3Cfg (fun _ => false) c3InactiveProject rfl rfl).2
      rfl rfl (Or.inl rfl)⟩

/-- Number of outcomes recorded for project `p` in a whole-run result. -/
def projectOutcomeCount
    (r : Except Nat (List Event × List (POutcome × Project) × List (OOutcome × Org)))
    (p : Project) : Nat :=
  match r with
  | Except.error _ => 0
  | Except.ok x => (x.2.1.filter (fun y => y.2 == p)).length

def c4Cfg : Config := ⟨⟨[], [], ["org1"], [], [], [], []⟩, false, true, false, true, "", ""⟩

def c4Project : Project := ⟨"p4", "npm", "github", "2023-09-01T00:00:00.000Z", false, true⟩

def c4Org : Org := ⟨"id1", "org1", [c4Project]⟩

/-- C4 counterexample: a project encountered during a run (its org is
processed, its date is in range, it passes the filters) can end the run
with ZERO recorded outcomes, not exactly one: in
`delete-inactive-projects` mode a monitored project matches neither loop
branch and nothing is appended. -/
theorem C4_counterexample :
    is_org_filtered c4Org c4Cfg.filters = false ∧
    is_date_between c4Project.created c4Cfg.before_date c4Cfg.after_date = some true ∧
    is_project_skipped c4Cfg.filters c4Project = false ∧
    projectOutcomeCount
      (mainRun [c4Org] c4Cfg (fun _ => false) (fun _ => false)) c4Project = 0 ∧
    ¬ projectOutcomeCount
        (mainRun [c4Org] c4Cfg (fun _ => false) (fun _ => false)) c4Project = 1 := by
  refine ⟨rfl, rfl, rfl, rfl, by decide⟩

/-- C4 (amended): each processed project gets AT MOST one recorded
outcome per encounter — never two — and any outcome recorded while
processing a project concerns that project; outcomes are only appended
and never removed or re-evaluated.  (Projects excluded by the date
filter or in the wrong activity state for the mode end with zero
outcomes, which is why "exactly one" fails.) -/
theorem C4_at_most_one_outcome (cfg : Config) (fails : Project → Bool) (p : Project) :
    ∀ evts outs del, processProject cfg fails p = Except.ok (evts, outs, del) →
      outs.length ≤ 1 ∧ ∀ x ∈ outs, x.2 = p := by
  intro evts outs del h
  simp only [processProject] at h
  cases hdm : is_date_between p.created cfg.before_date cfg.after_date with
  | none => simp [hdm] at h
  | some tv =>
    simp only [hdm] at h
    cases tv with
    | false =>
      simp at h
      obtain ⟨-, h2, -⟩ := h
      subst h2
      simp
    | true =>
      by_cases hs : is_project_skipped cfg.filters p
      · simp [hs] at h
        obtain ⟨-, h2, -⟩ := h
        subst h2
        simp
      · simp [hs] at h
        cases hp : p.isMonitored <;> cases hdia : cfg.deleteinActive <;>
          cases hda : cfg.deactivate <;> cases hdr : cfg.dryrun <;>
          cases hf : fails p <;> simp_all <;> simp [← h.2.1]

theorem C4_at_most_one_outcome_witness :
    processProject c4Cfg (fun _ => false) c4Project = Except.ok ([], [], false) ∧
    ([] : List (POutcome × Project)).length ≤ 1 :=
  ⟨rfl, ((C4_at_most_one_outcome c4Cfg (fun _ => false) c4Project) [] [] false rfl).1⟩


def forceCfg (cfg : Config) : Config := { cfg with dryrun := false }

lemma processProject_dry (cfg : Config) (fails : Project → Bool) (p : Project)
    (h : cfg.dryrun = true) :
    processProject cfg fails p
      = (processProject (forceCfg cfg) (fun _ => false) p).map
          (fun x => ([], x.2.1, false)) := by
  obtain ⟨fl, dog, dr, da, dia, bdt, adt⟩ := cfg
  simp only at h
  subst h
  simp only [processProject, forceCfg]
  cases hdm : is_date_between p.created bdt adt with
  | none => rfl
  | some tv =>
    cases tv with
    | false => rfl
    | true =>
      by_cases hs : is_project_skipped fl p
      · simp [hs, Except.map]
      · simp only [hs]
        cases hp : p.isMonitored <;> cases dia <;> cases da <;> simp [Except.map]


lemma processProjects_dry (cfg : Config) (fails : Project → Bool)
    (ps : List Project) (h : cfg.dryrun = true) :
    processProjects cfg fails ps
      = (processProjects (forceCfg cfg) (fun _ => false) ps).map
          (fun x => ([], x.2.1, [])) := by
  induction ps with
  | nil => rfl
  | cons p ps ih =>
    simp only [processProjects]
    rw [processProject_dry cfg fails p h, ih]
    cases processProject (forceCfg cfg) (fun _ => false) p with
    | error n => rfl
    | ok r =>
      cases processProjects (forceCfg cfg) (fun _ => false) ps with
      | error n => rfl
      | ok rest => simp [Except.map]

lemma processOrg_dry_proj (cfg : Config) (fails : Project → Bool)
    (orgFails : Org → Bool) (org : Org) (h : cfg.dryrun = true) :
    (processOrg cfg fails orgFails org).map (fun x => x.2.1)
      = (processOrg (forceCfg cfg) (fun _ => false) (fun _ => false) org).map
          (fun x => x.2.1) := by
  have hfil : (forceCfg cfg).filters = cfg.filters := rfl
  simp only [processOrg, hfil]
  by_cases ho : is_org_filtered org cfg.filters
  · simp [ho]
  · simp only [ho, if_neg, Bool.false_eq_true, not_false_eq_true]
    rw [processProjects_dry cfg fails org.projects h]
    cases processProjects (forceCfg cfg) (fun _ => false) org.projects with
    | error n => rfl
    | ok pr => simp [Except.map]


lemma except_map_eq_elim {α β : Type} {f : α → β} {x y : Except Nat α}
    (h : x.map f = y.map f) :
    (∃ n, x = Except.error n ∧ y = Except.error n) ∨
    (∃ a b, x = Except.ok a ∧ y = Except.ok b ∧ f a = f b) := by
  cases x with
  | error n =>
    cases y with
    | error m =>
      simp [Except.map] at h
      exact Or.inl ⟨n, rfl, by rw [h]⟩
    | ok b => simp [Except.map] at h
  | ok a =>
    cases y with
    | error m => simp [Except.map] at h
    | ok b =>
      simp [Except.map] at h
      exact Or.inr ⟨a, b, rfl, rfl, h⟩

lemma processOrg_dry_full (cfg : Config) (fails : Project → Bool)
    (orgFails : Org → Bool) (org : Org) (h : cfg.dryrun = true)
    (hdog : cfg.deleteorgs = false) :
    (processOrg cfg fails orgFails org).map (fun x => x.2)
      = (processOrg (forceCfg cfg) (fun _ => false) (fun _ => false) org).map
          (fun x => x.2) := by
  have hfil : (forceCfg cfg).filters = cfg.filters := rfl
  have hdog2 : (forceCfg cfg).deleteorgs = cfg.deleteorgs := rfl
  simp only [processOrg, hfil, hdog2, hdog]
  by_cases ho : is_org_filtered org cfg.filters
  · simp [ho]
  · simp only [ho, if_neg, Bool.false_eq_true, not_false_eq_true]
    rw [processProjects_dry cfg fails org.projects h]
    cases processProjects (forceCfg cfg) (fun _ => false) org.projects with
    | error n => rfl
    | ok pr => simp [Except.map]

lemma processOrg_dry_events (cfg : Config) (fails : Project → Bool)
    (orgFails : Org → Bool) (org : Org) (h : cfg.dryrun = true) :
    ∀ evts pouts oouts,
      processOrg cfg fails orgFails org = Except.ok (evts, pouts, oouts) →
      evts.filter isMutation = [] := by
  intro evts pouts oouts hp
  simp only [processOrg] at hp
  by_cases ho : is_org_filtered org cfg.filters
  · simp [ho] at hp
    obtain ⟨h1, -, -⟩ := hp
    simp [h1]
  · simp only [ho, if_neg, Bool.false_eq_true, not_false_eq_true] at hp
    rw [processProjects_dry cfg fails org.projects h] at hp
    cases hpr : processProjects (forceCfg cfg) (fun _ => false) org.projects with
    | error n => rw [hpr] at hp; simp [Except.map] at hp
    | ok pr =>
      rw [hpr] at hp
      simp only [Except.map, h] at hp
      split at hp <;> (try split at hp) <;>
        (simp [h] at hp; obtain ⟨h1, -, -⟩ := hp; subst h1; simp [isMutation])


lemma runOrgs_dry_proj (cfg : Config) (fails : Project → Bool)
    (orgFails : Org → Bool) (l : List Org) (h : cfg.dryrun = true) :
    (runOrgs cfg fails orgFails l).map (fun x => x.2.1)
      = (runOrgs (forceCfg cfg) (fun _ => false) (fun _ => false) l).map
          (fun x => x.2.1) := by
  induction l with
  | nil => rfl
  | cons o rest ih =>
    simp only [runOrgs]
    rcases except_map_eq_elim (processOrg_dry_proj cfg fails orgFails o h) with
      ⟨n, h1, h2⟩ | ⟨a, b, h1, h2, h3⟩
    · simp [h1, h2]
    · rcases except_map_eq_elim ih with ⟨n, h4, h5⟩ | ⟨c, d, h4, h5, h6⟩
      · simp [h1, h2, h4, h5, Except.map]
      · simp [h1, h2, h4, h5, Except.map, h3, h6]

lemma runOrgs_dry_full (cfg : Config) (fails : Project → Bool)
    (orgFails : Org → Bool) (l : List Org) (h : cfg.dryrun = true)
    (hdog : cfg.deleteorgs = false) :
    (runOrgs cfg fails orgFails l).map (fun x => x.2)
      = (runOrgs (forceCfg cfg) (fun _ => false) (fun _ => false) l).map
          (fun x => x.2) := by
  induction l with
  | nil => rfl
  | cons o rest ih =>
    simp only [runOrgs]
    rcases except_map_eq_elim (processOrg_dry_full cfg fails orgFails o h hdog) with
      ⟨n, h1, h2⟩ | ⟨a, b, h1, h2, h3⟩
    · simp [h1, h2]
    · rcases except_map_eq_elim ih with ⟨n, h4, h5⟩ | ⟨c, d, h4, h5, h6⟩
      · simp [h1, h2, h4, h5, Except.map]
      · simp [h1, h2, h4, h5, Except.map, h3, h6]

lemma runOrgs_dry_events (cfg : Config) (fails : Project → Bool)
    (orgFails : Org → Bool) (l : List Org) (h : cfg.dryrun = true) :
    ∀ evts pouts oouts,
      runOrgs cfg fails orgFails l = Except.ok (evts, pouts, oouts) →
      evts.filter isMutation = [] := by
  induction l with
  | nil =>
    intro evts pouts oouts hp
    simp [runOrgs] at hp
    obtain ⟨h1, -, -⟩ := hp
    simp [h1]
  | cons o rest ih =>
    intro evts pouts oouts hp
    simp only [runOrgs] at hp
    cases ho : processOrg cfg fails orgFails o with
    | error n => rw [ho] at hp; simp at hp
    | ok r =>
      rw [ho] at hp
      cases hr : runOrgs cfg fails orgFails rest with
      | error n => rw [hr] at hp; simp at hp
      | ok rr =>
        rw [hr] at hp
        simp at hp
        obtain ⟨h1, -, -⟩ := hp
        subst h1
        rw [List.filter_append,
          processOrg_dry_events cfg fails orgFails o h r.1 r.2.1 r.2.2 (by rw [ho]),
          ih rr.1 rr.2.1 rr.2.2 (by rw [hr])]
        rfl


/-- C2 (amended): with `dryRun = true` no `deactivate`/`delete`/
`delete-organization` call is ever issued, PROJECT outcome counts are
identical to a `dryRun = false` run on the same inputs with no mutation
failures, and when `deleteEmptyOrgs` is false the whole `RunReport`
(projects and organizations) is identical as well.  (With
`deleteEmptyOrgs` set, the reports can differ: force-mode deletions can
empty an organization, whose fresh re-query then triggers an
organization deletion the dry run never records — see the
counterexample.) -/
theorem C2_dry_run_refinement (userOrgs : List Org) (cfg : Config)
    (fails : Project → Bool) (orgFails : Org → Bool) (h : cfg.dryrun = true) :
    (∀ evts pouts oouts,
        mainRun userOrgs cfg fails orgFails = Except.ok (evts, pouts, oouts) →
        evts.filter isMutation = []) ∧
    ((mainRun userOrgs cfg fails orgFails).map (fun x => x.2.1)
      = (mainRun userOrgs (forceCfg cfg) (fun _ => false) (fun _ => false)).map
          (fun x => x.2.1)) ∧
    (cfg.deleteorgs = false →
      (mainRun userOrgs cfg fails orgFails).map (fun x => x.2)
        = (mainRun userOrgs (forceCfg cfg) (fun _ => false) (fun _ => false)).map
            (fun x => x.2)) := by
  have hfil : (forceCfg cfg).filters = cfg.filters := rfl
  have hdog : (forceCfg cfg).deleteorgs = cfg.deleteorgs := rfl
  by_cases hg : (filtersAllEmpty cfg.filters && !cfg.deleteorgs) = true
  · refine ⟨?_, ?_, ?_⟩
    · intro evts pouts oouts hp
      simp [mainRun, hg] at hp
    · simp [mainRun, hfil, hdog, hg]
    · intro _
      simp [mainRun, hfil, hdog, hg]
  · have hg2 : (filtersAllEmpty cfg.filters && !cfg.deleteorgs) = false := by
      simpa using hg
    refine ⟨?_, ?_, ?_⟩
    · intro evts pouts oouts hp
      simp only [mainRun, hg2] at hp
      simp at hp
      exact runOrgs_dry_events cfg fails orgFails userOrgs h evts pouts oouts hp
    · simp only [mainRun, hfil, hdog, hg2]
      simp
      exact runOrgs_dry_proj cfg fails orgFails userOrgs h
    · intro hdo
      simp only [mainRun, hfil, hdog, hg2]
      simp
      exact runOrgs_dry_full cfg fails orgFails userOrgs h hdo

/-- Number of organization outcomes of kind `oc` in a whole-run result. -/
def orgOutcomeCount
    (r : Except Nat (List Event × List (POutcome × Project) × List (OOutcome × Org)))
    (oc : OOutcome) : Nat :=
  match r with
  | Except.error _ => 0
  | Except.ok x => (x.2.2.filter (fun y => y.1 == oc)).length

def c2Project : Project := ⟨"p1", "npm", "github", "2023-09-01T00:00:00.000Z", false, true⟩

def c2Org : Org := ⟨"id1", "org1", [c2Project]⟩

def c2DryCfg : Config := ⟨⟨[], [], ["org1"], [], [], [], []⟩, true, true, false, false, "", ""⟩

def c2ForceCfg : Config := ⟨⟨[], [], ["org1"], [], [], [], []⟩, true, false, false, false, "", ""⟩

/-- C2 counterexample: same inputs, no mutation failure, configs equal
except `dryRun`, `deleteEmptyOrgs` set: the force run deletes the only
project, re-queries the organization as empty and records it Deleted;
the dry run deletes nothing, so the re-query still sees the project and
no organization outcome is recorded — the `RunReport` counts differ. -/
theorem C2_counterexample :
    c2DryCfg = { c2ForceCfg with dryrun := true } ∧
    orgOutcomeCount (mainRun [c2Org] c2DryCfg (fun _ => false) (fun _ => false))
      OOutcome.deleted = 0 ∧
    orgOutcomeCount (mainRun [c2Org] c2ForceCfg (fun _ => false) (fun _ => false))
      OOutcome.deleted = 1 := by
  refine ⟨rfl, rfl, rfl⟩

theorem C2_dry_run_refinement_witness :
    c2DryCfg.dryrun = true ∧
    (mainRun [c2Org] c2DryCfg (fun _ => false) (fun _ => false)).map (fun x => x.2.1)
      = (mainRun [c2Org] (forceCfg c2DryCfg) (fun _ => false) (fun _ => false)).map
          (fun x => x.2.1) :=
  ⟨rfl,
   (C2_dry_run_refinement [c2Org] c2DryCfg (fun _ => false) (fun _ => false) rfl).2.1⟩


/-- C9: with `dryRun = false`, a `deactivate`/`delete` call that raises
is caught at the loop boundary: the project is recorded as `Failed`, one
mutation call event was still emitted for it, and the remaining projects
of the batch are processed exactly as they would have been — no single
mutation failure aborts the batch. -/
theorem C9_mutation_failure_isolated (cfg : Config) (fails : Project → Bool)
    (p : Project) (hforce : cfg.dryrun = false) (hfail : fails p = true)
    (hdate : is_date_between p.created cfg.before_date cfg.after_date = some true)
    (helig : is_project_skipped cfg.filters p = false)
    (hact : ((p.isMonitored && !cfg.deleteinActive)
        || (!p.isMonitored && cfg.deleteinActive)) = true) :
    ∀ ps evts outs dels, processProjects cfg fails ps = Except.ok (evts, outs, dels) →
      ∃ e, processProjects cfg fails (p :: ps)
        = Except.ok (e :: evts, (POutcome.failed, p) :: outs, dels) := by
  have hp : ∃ e, processProject cfg fails p
      = Except.ok ([e], [(POutcome.failed, p)], false) := by
    cases hm : p.isMonitored with
    | false =>
      cases hdia : cfg.deleteinActive with
      | false => rw [hm, hdia] at hact; simp at hact
      | true =>
        exact ⟨Event.deleteCall p.name,
          by simp [processProject, hdate, helig, hm, hdia, hforce, hfail]⟩
    | true =>
      cases hdia : cfg.deleteinActive with
      | true => rw [hm, hdia] at hact; simp at hact
      | false =>
        by_cases hda : cfg.deactivate = true
        · exact ⟨Event.deactivateCall p.name,
            by simp [processProject, hdate, helig, hm, hdia, hforce, hfail, hda]⟩
        · have hda2 : cfg.deactivate = false := by simpa using hda
          exact ⟨Event.deleteCall p.name,
            by simp [processProject, hdate, helig, hm, hdia, hforce, hfail, hda2]⟩
  obtain ⟨e, hpe⟩ := hp
  intro ps evts outs dels hps
  refine ⟨e, ?_⟩
  simp [processProjects, hpe, hps]

def c9Cfg : Config := ⟨⟨[], [], ["org1"], [], [], [], []⟩, false, false, false, false, "", ""⟩

def c9FailProject : Project := ⟨"p1", "npm", "github", "2023-09-01T00:00:00.000Z", false, true⟩

def c9NextProject : Project := ⟨"p2", "maven", "github", "2023-09-01T00:00:00.000Z", false, true⟩

def c9Fails : Project → Bool := fun p => p.name == "p1"

theorem C9_mutation_failure_isolated_witness :
    c9Fails c9FailProject = true ∧
    (∃ e, processProjects c9Cfg c9Fails [c9FailProject, c9NextProject]
      = Except.ok (e :: [Event.deleteCall "p2"],
          (POutcome.failed, c9FailProject) :: [(POutcome.deleted, c9NextProject)],
          [c9NextProject])) :=
  ⟨rfl,
   C9_mutation_failure_isolated c9Cfg c9Fails c9FailProject rfl rfl rfl rfl rfl
     [c9NextProject] [Event.deleteCall "p2"] [(POutcome.deleted, c9NextProject)]
     [c9NextProject] rfl⟩


end SnykBulkDelete
